import Mathlib

/-!
Verification of the Falcon-512 signature verification core of the
Solana-Falcon-512-Vault repository against its specification.

The development shallowly embeds the core Rust modules as executable Lean
functions and proves or refutes the frozen claims about them:

- src/src/falcon/ntt.rs     : field arithmetic, forward/inverse NTT,
                              signed/unsigned coefficient conversions;
- src/src/falcon/keccak.rs  : the Keccak-f[1600] permutation and the
                              SHAKE256 sponge (absorb / finalize / squeeze);
- src/src/falcon/verify.rs  : signature decompression, public-key and
                              signature parsing, hash-to-point and the
                              top-level verification function.

Machine integers are embedded as Nat (unsigned) or Int (signed) with explicit
reduction modulo 2^w exactly where the Rust code truncates or wraps
(release-mode semantics: integer overflow wraps, as-casts truncate).
Fallible operations return Except over the single error value the code uses,
ProgramError::InvalidAccountData.
-/

/-- ProgramError as used by the verification core: every failure path in
verify.rs returns ProgramError::InvalidAccountData. -/
inductive ProgramError where
  | invalidAccountData
  deriving DecidableEq

deriving instance DecidableEq for Except

/-! ## Embedding of src/src/falcon/ntt.rs -/

/-- Prime modulus Q = 12289 (ntt.rs line 5). -/
def Q : Nat := 12289

/-- Ring dimension N = 512 (ntt.rs line 6). -/
def N : Nat := 512

/-- ROOT_OF_UNITY = 1479 (ntt.rs line 7). -/
def ROOT_OF_UNITY : Nat := 1479

/-- INV_N = 12265 (ntt.rs line 10). -/
def INV_N : Nat := 12265

/-- Embedding of fast_mod_q (ntt.rs lines 56-65).  The branch for x < Q
returns x; otherwise the value is split at bit 13 and recombined as
low + 13 * high with one conditional subtraction of Q. -/
def fast_mod_q (x : Nat) : Nat :=
  if x < Q then x
  else
    let high := x >>> 13
    let low := x &&& 8191
    let reduced := low + 13 * high
    if reduced ≥ Q then reduced - Q else reduced

/-- Embedding of mod_mul (ntt.rs lines 46-49): the u64 product is cast to u32
(truncation modulo 2^32) before the fast reduction. -/
def mod_mul (a b : Nat) : Nat := fast_mod_q ((a * b) % 4294967296)

/-- Iteration body of mod_pow_runtime (ntt.rs lines 32-43), with fuel for the
halving loop on exp.  Each multiplication is truncated to u32 exactly as the
source casts the u64 product.  A fuel of 16 covers every exponent below 2^16;
the source only calls this with exponents at most 1024. -/
def mod_pow_aux : Nat → Nat → Nat → Nat → Nat
  | 0, _, _, result => result
  | fuel+1, base, exp, result =>
    if exp = 0 then result
    else
      let result := if exp % 2 = 1 then fast_mod_q ((result * base) % 4294967296) else result
      mod_pow_aux fuel (fast_mod_q ((base * base) % 4294967296)) (exp / 2) result

/-- Embedding of mod_pow_runtime (ntt.rs lines 32-43). -/
def mod_pow_runtime (base exp : Nat) : Nat := mod_pow_aux 16 (base % Q) exp 1

/-- Embedding of compute_twiddles (ntt.rs lines 13-19):
twiddles[i] = ROOT_OF_UNITY ^ i under mod_pow_runtime. -/
def compute_twiddles : List Nat :=
  (List.range N).map (fun i => mod_pow_runtime ROOT_OF_UNITY i)

/-- Embedding of compute_inv_twiddles (ntt.rs lines 22-29):
inv_twiddles[i] = 1 for i = 0 and ROOT_OF_UNITY ^ (1024 - i) otherwise. -/
def compute_inv_twiddles : List Nat :=
  (List.range N).map (fun i => if i = 0 then 1 else mod_pow_runtime ROOT_OF_UNITY (1024 - i))

/-- Loop body of bit_reverse (ntt.rs lines 71-78). -/
def bit_reverse_aux : Nat → Nat → Nat → Nat
  | 0, _, result => result
  | bits+1, x, result => bit_reverse_aux bits (x >>> 1) ((result <<< 1) ||| (x &&& 1))

/-- Embedding of bit_reverse (ntt.rs lines 71-78). -/
def bit_reverse (x bits : Nat) : Nat := bit_reverse_aux bits x 0

/-- The bit-reversal reordering loops of ntt_forward (lines 86-91) and
ntt_inverse (lines 143-148): each pair of positions i < bit_reverse i 9 is
swapped exactly once, and bit_reverse with 9 bits is an involution on the
index range, so the loop realizes the permutation idx to bit_reverse idx 9. -/
def bit_reverse_perm (c : List Nat) : List Nat :=
  (List.range N).map (fun i => c.getD (bit_reverse i 9) 0)

/-- The u32 subtraction pattern u + Q - v of the butterflies (ntt.rs lines 104
and 129) with release-mode wraparound modulo 2^32 when v exceeds u + Q. -/
def wsub_q (u v : Nat) : Nat := (u + Q + 4294967296 - v) % 4294967296

/-- One pass of the forward butterfly stage over consecutive blocks
(ntt.rs lines 95-110).  The in-place loop reads c[i] and c[i + len/2] before
writing both, and distinct butterflies touch disjoint pairs, so each block of
size len maps to the two zipped halves computed here; stw lists the twiddle
factors tw[step * j] for j below len/2.  The fuel is the block count N/len. -/
def ntt_fwd_blocks (stw : List Nat) (len : Nat) : Nat → List Nat → List Nat
  | 0, _ => []
  | fuel+1, c =>
    let u := c.take (len / 2)
    let vt := List.zipWith mod_mul ((c.drop (len / 2)).take (len / 2)) stw
    List.zipWith (fun a b => fast_mod_q (a + b)) u vt
      ++ List.zipWith (fun a b => fast_mod_q (wsub_q a b)) u vt
      ++ ntt_fwd_blocks stw len fuel (c.drop len)

/-- One stage (one value of len) of ntt_forward (ntt.rs lines 94-110). -/
def ntt_fwd_stage (tw : List Nat) (len : Nat) (c : List Nat) : List Nat :=
  let step := N / len
  let stw := (List.range (len / 2)).map (fun j => tw.getD (step * j) 0)
  ntt_fwd_blocks stw len (N / len) c

/-- Embedding of ntt_forward (ntt.rs lines 82-111): bit-reverse the input,
then run the butterfly stages for len = 2, 4, ..., 512. -/
def ntt_forward (c : List Nat) : List Nat :=
  let tw := compute_twiddles
  let c := bit_reverse_perm c
  (List.range 9).foldl (fun c s => ntt_fwd_stage tw (2 <<< s) c) c

/-- One pass of the inverse butterfly stage over consecutive blocks
(ntt.rs lines 120-135), same block decomposition as the forward stage. -/
def ntt_inv_blocks (stw : List Nat) (len : Nat) : Nat → List Nat → List Nat
  | 0, _ => []
  | fuel+1, c =>
    let u := c.take (len / 2)
    let v := (c.drop (len / 2)).take (len / 2)
    List.zipWith (fun a b => fast_mod_q (a + b)) u v
      ++ List.zipWith mod_mul (List.zipWith (fun a b => fast_mod_q (wsub_q a b)) u v) stw
      ++ ntt_inv_blocks stw len fuel (c.drop len)

/-- One stage (one value of len) of ntt_inverse (ntt.rs lines 119-135). -/
def ntt_inv_stage (itw : List Nat) (len : Nat) (c : List Nat) : List Nat :=
  let step := N / len
  let stw := (List.range (len / 2)).map (fun j => itw.getD (step * j) 0)
  ntt_inv_blocks stw len (N / len) c

/-- Embedding of ntt_inverse (ntt.rs lines 115-149): butterfly stages for
len = 512, 256, ..., 2, then scaling by INV_N, then the bit-reversal. -/
def ntt_inverse (c : List Nat) : List Nat :=
  let itw := compute_inv_twiddles
  let c := (List.range 9).foldl (fun c s => ntt_inv_stage itw (N >>> s) c) c
  let c := c.map (fun x => mod_mul x INV_N)
  bit_reverse_perm c

/-- Embedding of ntt_pointwise_mul (ntt.rs lines 154-158). -/
def ntt_pointwise_mul (a b : List Nat) : List Nat := List.zipWith mod_mul a b

/-- Two's-complement reinterpretation of a 16-bit pattern, the meaning of a
Rust as-i16 cast. -/
def i16_of_pat (pat : Nat) : Int := if pat ≥ 32768 then (pat : Int) - 65536 else (pat : Int)

/-- Reduction of an integer into the i16 range by two's-complement wraparound,
the meaning of Rust release-mode i16 arithmetic. -/
def wrap16 (x : Int) : Int := (x + 32768) % 65536 - 32768

/-- Embedding of to_ntt_form (ntt.rs lines 169-181): nonnegative signed
coefficients pass through, negative ones get Q added, with the final as-u32
cast wrapping modulo 2^32. -/
def to_ntt_form (l : List Int) : List Nat :=
  l.map (fun v => if 0 ≤ v then v.toNat else ((v + 12289) % 4294967296).toNat)

/-- Embedding of from_ntt_form (ntt.rs lines 184-195): values above Q/2 = 6144
are recentered by subtracting Q; the final as-i16 cast truncates to 16 bits. -/
def from_ntt_form (l : List Nat) : List Int :=
  l.map (fun (u : Nat) => if 6144 < u then wrap16 ((u : Int) - 12289) else wrap16 (u : Int))

/-! ## Embedding of src/src/falcon/keccak.rs -/

/-- Mask of a 64-bit lane. -/
def U64MASK : Nat := 18446744073709551615

/-- Rust u64 rotate_left for rotation amounts between 1 and 63. -/
def rotl64 (x r : Nat) : Nat := ((x <<< r) ||| (x >>> (64 - r))) &&& U64MASK

/-- ROUND_CONSTANTS exactly as listed in keccak.rs lines 11-18. -/
def ROUND_CONSTANTS : List Nat := [
  0x0000000000000001, 0x0000000000008082, 0x800000000000808a, 0x8000000080008000,
  0x000000000000808b, 0x0000000080000001, 0x8000000080008081, 0x8000000000008009,
  0x000000000000008a, 0x0000000000000088, 0x0000000080008009, 0x8000000000008003,
  0x8000000000008002, 0x8000000000000080, 0x000000000000800a, 0x800000008000000a,
  0x8000000080008081, 0x8000000000008080, 0x0000000080000001, 0x8000000080008008,
  0x8000000000000000, 0x8000000080008082, 0x800000000000808a, 0x8000000080000000]

/-- RHO_OFFSETS exactly as listed in keccak.rs lines 21-23. -/
def RHO_OFFSETS : List Nat :=
  [1, 3, 6, 10, 15, 21, 28, 36, 45, 55, 2, 14, 27, 41, 56, 8, 25, 43, 62, 18, 39, 61, 20, 44]

/-- Theta step of keccak_f1600 (keccak.rs lines 152-165); lane (x, y) lives at
state index y * 5 + x. -/
def theta (s : List Nat) : List Nat :=
  let c := (List.range 5).map (fun x =>
    (((s.getD x 0 ^^^ s.getD (x + 5) 0) ^^^ s.getD (x + 10) 0) ^^^ s.getD (x + 15) 0) ^^^
      s.getD (x + 20) 0)
  let d := (List.range 5).map (fun x => c.getD ((x + 4) % 5) 0 ^^^ rotl64 (c.getD ((x + 1) % 5) 0) 1)
  (List.range 25).map (fun i => s.getD i 0 ^^^ d.getD (i % 5) 0)

/-- Embedding of pi_coordinates (keccak.rs lines 195-204): t steps of
(x, y) to (y, (2x + 3y) mod 5) starting from (1, 0). -/
def pi_coordinates : Nat → Nat × Nat
  | 0 => (1, 0)
  | t+1 =>
    let p := pi_coordinates t
    (p.2, (2 * p.1 + 3 * p.2) % 5)

/-- Combined rho and pi steps exactly as coded in keccak.rs lines 168-175:
at iteration t the lane carried in 'current' is rotated by RHO_OFFSETS[t] and
written at pi_coordinates t, and the previous occupant becomes 'current'. -/
def rho_pi (s : List Nat) : List Nat :=
  ((List.range 24).foldl (fun (p : List Nat × Nat) t =>
    let xy := pi_coordinates t
    let idx := xy.2 * 5 + xy.1
    (p.1.set idx (rotl64 p.2 (RHO_OFFSETS.getD t 0)), p.1.getD idx 0))
    (s, s.getD 1 0)).1

/-- Chi step of keccak_f1600 (keccak.rs lines 178-186); complement is xor with
the full 64-bit mask. -/
def chi (s : List Nat) : List Nat :=
  (List.range 25).map (fun i =>
    let y := i / 5
    let x := i % 5
    s.getD (y * 5 + x) 0 ^^^
      ((s.getD (y * 5 + (x + 1) % 5) 0 ^^^ U64MASK) &&& s.getD (y * 5 + (x + 2) % 5) 0))

/-- One round of keccak_f1600 (keccak.rs lines 150-190): theta, rho and pi,
chi, then the iota xor of the round constant into lane 0. -/
def keccak_round (s : List Nat) (round : Nat) : List Nat :=
  let s := chi (rho_pi (theta s))
  s.set 0 (s.getD 0 0 ^^^ ROUND_CONSTANTS.getD round 0)

/-- Embedding of keccak_f1600 (keccak.rs lines 149-191): 24 rounds. -/
def keccak_f1600 (s : List Nat) : List Nat := (List.range 24).foldl keccak_round s

/-- SHAKE256_RATE = 136 bytes (keccak.rs line 8). -/
def SHAKE256_RATE : Nat := 136

/-- Shake256 absorbing state (keccak.rs lines 26-31): 25 lanes plus the
currently buffered input bytes (the live prefix of the fixed rate buffer). -/
structure Shake256 where
  state : List Nat
  buffer : List Nat

/-- Embedding of Shake256::new (keccak.rs lines 35-42). -/
def shake_new : Shake256 := ⟨List.replicate 25 0, []⟩

/-- Little-endian assembly of one 64-bit lane from 8 buffer bytes
(keccak.rs lines 90-95). -/
def lane_of_bytes (bytes : List Nat) : Nat :=
  (List.range 8).foldl (fun lane j => lane ||| (bytes.getD j 0 <<< (j * 8))) 0

/-- Embedding of Shake256::absorb_block (keccak.rs lines 88-100): xor the 17
rate lanes into the state and permute. -/
def absorb_block (state buffer : List Nat) : List Nat :=
  keccak_f1600 ((List.range 25).map (fun i =>
    if i < 17 then state.getD i 0 ^^^ lane_of_bytes ((buffer.drop (i * 8)).take 8)
    else state.getD i 0))

/-- Block-absorption loop of Shake256::update (keccak.rs lines 45-65): absorb
full rate blocks in order, keep the remainder buffered.  Fuel bounds the
number of blocks; calling with the byte count is always sufficient. -/
def absorb_chunks : Nat → List Nat → List Nat → List Nat × List Nat
  | 0, s, b => (s, b)
  | fuel+1, s, b =>
    if b.length < SHAKE256_RATE then (s, b)
    else absorb_chunks fuel (absorb_block s (b.take SHAKE256_RATE)) (b.drop SHAKE256_RATE)

/-- Embedding of Shake256::update (keccak.rs lines 45-65). -/
def shake_update (h : Shake256) (data : List Nat) : Shake256 :=
  let all := h.buffer ++ data
  let r := absorb_chunks all.length h.state all
  ⟨r.1, r.2⟩

/-- Shake256Reader squeezing state (keccak.rs lines 104-108). -/
structure Shake256Reader where
  state : List Nat
  buffer : List Nat
  buffer_len : Nat

/-- Embedding of Shake256::finalize_xof (keccak.rs lines 68-85): append the
0x1f suffix, zero-fill to the rate, set the top bit of the last rate byte,
absorb once, and hand over to a reader with an empty output buffer. -/
def finalize_xof (h : Shake256) : Shake256Reader :=
  let n := h.buffer.length
  let padded := h.buffer ++ 0x1f :: List.replicate (SHAKE256_RATE - n - 1) 0
  let padded2 := padded.take 135 ++ [padded.getD 135 0 ||| 0x80]
  ⟨absorb_block h.state padded2, [], 0⟩

/-- The 136 rate bytes of the state, little-endian per lane
(keccak.rs lines 135-140). -/
def state_to_bytes (s : List Nat) : List Nat :=
  (List.range SHAKE256_RATE).map (fun k => (s.getD (k / 8) 0 >>> ((k % 8) * 8)) &&& 255)

/-- Embedding of Shake256Reader::squeeze_block (keccak.rs lines 133-144):
serialize the current state into the output buffer, then permute. -/
def squeeze_block (r : Shake256Reader) : Shake256Reader :=
  ⟨keccak_f1600 r.state, state_to_bytes r.state, SHAKE256_RATE⟩

/-- Embedding of Shake256Reader::read (keccak.rs lines 112-130), byte at a
time: refill by squeezing when the buffer is exhausted, then serve from offset
SHAKE256_RATE - buffer_len.  The source copies maximal contiguous chunks of
exactly these bytes. -/
def reader_read : Nat → Shake256Reader → List Nat × Shake256Reader
  | 0, r => ([], r)
  | n+1, r0 =>
    let r := if r0.buffer_len = 0 then squeeze_block r0 else r0
    let byte := r.buffer.getD (SHAKE256_RATE - r.buffer_len) 0
    let rest := reader_read n ⟨r.state, r.buffer, r.buffer_len - 1⟩
    (byte :: rest.1, rest.2)

/-- The digest computation of the unit tests in keccak.rs lines 211-247:
new, update with the input, finalize_xof, read n bytes. -/
def shake256_digest (data : List Nat) (n : Nat) : List Nat :=
  (reader_read n (finalize_xof (shake_update shake_new data))).1

/-! ## Embedding of src/src/falcon/verify.rs -/

/-- FALCON_512_SIG_BOUND_FIXED (verify.rs lines 15-23): float_to_fixed maps
34034726.0 to (34034726.0 * 2^32) as i64.  Both f64 operations are exact here
(34034726 has 26 significant bits and the scale is a power of two) and the
product 34034726 * 2^32 is below 2^63, so the as-i64 cast is exact as well. -/
def FALCON_512_SIG_BOUND_FIXED : Int := 34034726 * 4294967296

/-- FIXED_POINT_SCALE = 2^32 (verify.rs line 15). -/
def FIXED_POINT_SCALE : Int := 4294967296

/-- Reduction of an integer into the i64 range by two's-complement wraparound,
the meaning of Rust release-mode i64 arithmetic. -/
def wrap64 (x : Int) : Int :=
  (x + 9223372036854775808) % 18446744073709551616 - 9223372036854775808

/-- Embedding of FieldElement::balanced_value (verify.rs lines 38-45) for a
stored value below Q: values above Q/2 = 6144 are recentered by one Q. -/
def balanced_value (v : Nat) : Int := if 6144 < v then (v : Int) - 12289 else (v : Int)

/-- Embedding of Polynomial::from_signed_coeffs (verify.rs lines 97-104);
Rust i32 rem is truncated division remainder, Int.tmod. -/
def from_signed_coeffs (l : List Int) : List Nat :=
  l.map (fun x => ((x.tmod 12289 + 12289).tmod 12289).toNat)

/-- Embedding of Polynomial::ntt (verify.rs lines 107-125): run ntt_forward on
the raw values, then rebuild field elements via the as-u16 cast (mod 2^16)
composed with FieldElement::new (mod Q). -/
def poly_ntt (p : List Nat) : List Nat := (ntt_forward p).map (fun x => x % 65536 % 12289)

/-- Embedding of Polynomial::intt (verify.rs lines 128-146), same u16 cast and
reduction on the way back. -/
def poly_intt (p : List Nat) : List Nat := (ntt_inverse p).map (fun x => x % 65536 % 12289)

/-- Embedding of Polynomial::pointwise_mul (verify.rs lines 149-170). -/
def poly_pointwise_mul (a b : List Nat) : List Nat :=
  (ntt_pointwise_mul a b).map (fun x => x % 65536 % 12289)

/-- Embedding of Polynomial subtraction (verify.rs lines 184-193), which is
coefficient-wise FieldElement::sub (verify.rs lines 55-60). -/
def poly_sub (a b : List Nat) : List Nat :=
  List.zipWith (fun x y => (x + 12289 - y) % 12289) a b

/-- K = (1 << 16) / FALCON_512_Q = 5 (verify.rs line 198). -/
def K : Nat := 65536 / 12289

/-- One 2-byte big-endian draw from the XOF stream
(verify.rs lines 209-212). -/
def draw2 (r : Shake256Reader) : Nat × Shake256Reader :=
  let rd := reader_read 2 r
  ((rd.1.getD 0 0 <<< 8) ||| rd.1.getD 1 0, rd.2)

/-- One iteration of the hash_to_point rejection-sampling loop
(verify.rs lines 208-217): accept the draw (reduced mod Q) only if it is below
K * Q, advancing the write index; reject otherwise. -/
def htp_step (c : List Nat) (i : Nat) (r : Shake256Reader) : List Nat × Nat × Shake256Reader :=
  let d := draw2 r
  if d.1 < K * 12289 then (c.set i (d.1 % 12289), i + 1, d.2) else (c, i, d.2)

/-- The while loop of hash_to_point with fuel standing in for the unbounded
rejection-sampling iteration of the source. -/
def htp_loop : Nat → List Nat → Nat → Shake256Reader → List Nat
  | 0, c, _, _ => c
  | fuel+1, c, i, r =>
    if i < 512 then
      let s := htp_step c i r
      htp_loop fuel s.1 s.2.1 s.2.2
    else c

/-- Embedding of hash_to_point (verify.rs lines 197-220): absorb nonce then
message into SHAKE256, finalize, and fill 512 coefficients by rejection
sampling on 2-byte big-endian draws. -/
def hash_to_point (message nonce : List Nat) (fuel : Nat) : List Nat :=
  htp_loop fuel (List.replicate 512 0) 0
    (finalize_xof (shake_update (shake_update shake_new nonce) message))

/-- Bit accessor of decompress_signature (verify.rs lines 234-236): bit
bit_idx = pos mod 8 of byte pos / 8. -/
def bitAt (cs : List Nat) (pos : Nat) : Nat := (cs.getD (pos / 8) 0 >>> (pos % 8)) &&& 1

/-- The 7-bit group read of decompress_signature (verify.rs lines 249-258):
each bit is bounds-checked and placed at position bit_pos mod 7 of the
accumulator.  Returns none on buffer exhaustion. -/
def read7 (cs : List Nat) : Nat → Nat → Nat → Option (Nat × Nat)
  | 0, pos, acc => some (acc, pos)
  | k+1, pos, acc =>
    if cs.length ≤ pos / 8 then none
    else read7 cs k (pos + 1) (acc ||| (bitAt cs pos <<< (pos % 7)))

/-- The inner continuation loop of decompress_signature (verify.rs lines
244-279): read a 7-bit group, or it into the value at the current shift
(i16 shift discards bits past bit 15), read the continuation bit, stop on a
clear bit, fail when the shift exceeds 14 with the bit set.  The loop runs at
most 3 iterations (shift 0, 7, 14), so fuel 3 is exact; the fuel-0 case is
unreachable from shift 0. -/
def group_loop (cs : List Nat) : Nat → Nat → Nat → Nat → Except ProgramError (Nat × Nat)
  | 0, _, _, _ => Except.error ProgramError.invalidAccountData
  | fuel+1, pos, shift, value =>
    if cs.length ≤ pos / 8 then Except.error ProgramError.invalidAccountData
    else
      match read7 cs 7 pos 0 with
      | none => Except.error ProgramError.invalidAccountData
      | some (byte_value, pos2) =>
        let value2 := value ||| ((byte_value <<< shift) &&& 65535)
        let shift2 := shift + 7
        if cs.length ≤ pos2 / 8 then Except.error ProgramError.invalidAccountData
        else
          let continuation := bitAt cs pos2
          if continuation = 0 then Except.ok (value2, pos2 + 1)
          else if shift2 > 14 then Except.error ProgramError.invalidAccountData
          else group_loop cs fuel (pos2 + 1) shift2 value2

/-- Rust release-mode i16 abs, which wraps on -32768 (verify.rs line 284). -/
def wrapping_abs (x : Int) : Int := wrap16 (if x < 0 then -x else x)

/-- One iteration of the outer loop of decompress_signature (verify.rs lines
228-287): sign bit, continuation loop, sign application with i16 wraparound,
and the coefficient bound check on the wrapping absolute value. -/
def decode_coeff (cs : List Nat) (pos : Nat) : Except ProgramError (Int × Nat) :=
  if cs.length ≤ pos / 8 then Except.error ProgramError.invalidAccountData
  else
    let sign : Int := if bitAt cs pos = 1 then -1 else 1
    match group_loop cs 3 (pos + 1) 0 0 with
    | Except.error e => Except.error e
    | Except.ok (value, pos2) =>
      let coeff := wrap16 (sign * i16_of_pat value)
      if wrapping_abs coeff > 2048 then Except.error ProgramError.invalidAccountData
      else Except.ok (coeff, pos2)

/-- The outer loop of decompress_signature over the 512 coefficients. -/
def decompress_loop (cs : List Nat) : Nat → Nat → List Int → Except ProgramError (List Int)
  | 0, _, acc => Except.ok acc.reverse
  | k+1, pos, acc =>
    match decode_coeff cs pos with
    | Except.error e => Except.error e
    | Except.ok (v, pos2) => decompress_loop cs k pos2 (v :: acc)

/-- Embedding of decompress_signature (verify.rs lines 224-290). -/
def decompress_signature (cs : List Nat) : Except ProgramError (List Int) :=
  decompress_loop cs 512 0 []

/-- The 14-bit read of parse_public_key (verify.rs lines 314-324); bits whose
byte offset falls outside the buffer are silently skipped, as in the source. -/
def read14 (data : List Nat) (byte_offset bit_pos : Nat) : Nat :=
  (List.range 14).foldl (fun coeff j =>
    let curr_bit_pos := bit_pos + j
    let curr_byte_offset := byte_offset + curr_bit_pos / 8
    if curr_byte_offset < data.length then
      coeff ||| (((data.getD curr_byte_offset 0 >>> (curr_bit_pos % 8)) &&& 1) <<< j)
    else coeff) 0

/-- The coefficient loop of parse_public_key (verify.rs lines 304-327), with
the guard byte_offset + 2 >= data.len() checked before each read; fuel counts
the remaining coefficients, i the current index. -/
def parse_pk_loop (data : List Nat) : Nat → Nat → List Nat → Except ProgramError (List Nat)
  | 0, _, acc => Except.ok acc.reverse
  | k+1, i, acc =>
    let byte_offset := i * 14 / 8
    let bit_pos := i * 14 % 8
    if byte_offset + 2 ≥ data.length then Except.error ProgramError.invalidAccountData
    else parse_pk_loop data k (i + 1) ((read14 data byte_offset bit_pos % 12289) :: acc)

/-- Embedding of parse_public_key (verify.rs lines 293-330): header byte must
equal FALCON_512_LOGN = 9, then the 512 packed 14-bit coefficients are read
from the remaining 896 bytes. -/
def parse_public_key (pk : List Nat) : Except ProgramError (List Nat) :=
  if pk.getD 0 0 ≠ 9 then Except.error ProgramError.invalidAccountData
  else parse_pk_loop (pk.drop 1) 512 0 []

/-- The header predicate of parse_signature (verify.rs lines 335-341):
3-bit encoding tag 2, fixed bit 1, 4-bit log-dimension 9. -/
def sig_header_ok (b : Nat) : Prop := (b >>> 5) &&& 7 = 2 ∧ (b >>> 4) &&& 1 = 1 ∧ b &&& 15 = 9

instance (b : Nat) : Decidable (sig_header_ok b) := by
  unfold sig_header_ok
  infer_instance

/-- Embedding of parse_signature (verify.rs lines 333-354): header check, then
the 40-byte nonce and the remaining compressed payload. -/
def parse_signature (sig : List Nat) : Except ProgramError (List Nat × List Nat) :=
  let header := sig.getD 0 0
  if (header >>> 5) &&& 7 ≠ 2 ∨ (header >>> 4) &&& 1 ≠ 1 ∨ header &&& 15 ≠ 9 then
    Except.error ProgramError.invalidAccountData
  else if sig.length < 41 then Except.error ProgramError.invalidAccountData
  else Except.ok ((sig.drop 1).take 40, sig.drop 41)

/-- The norm accumulation step of verify_falcon_signature (verify.rs lines
394-406) with release-mode i64 wraparound on each operation; the inner product
v * v * 2^32 itself stays below 2^63 for i16 inputs. -/
def norm_acc (acc : Int) (v : Int) : Int := wrap64 (acc + wrap64 (v * v * FIXED_POINT_SCALE))

/-- The combined squared norm of verify_falcon_signature: s1 contributions
then s2 contributions, in source order. -/
def norm_squared_fixed (s1 s2 : List Int) : Int := s2.foldl norm_acc (s1.foldl norm_acc 0)

/-- Embedding of verify_falcon_signature (verify.rs lines 358-414).  The fuel
is threaded to the rejection-sampling loop of hash_to_point, which the source
runs without bound. -/
def verify_falcon_signature (fuel : Nat) (pk sig msg : List Nat) : Except ProgramError Unit :=
  match parse_public_key pk with
  | Except.error e => Except.error e
  | Except.ok h =>
    match parse_signature sig with
    | Except.error e => Except.error e
    | Except.ok (nonce, compressed) =>
      match decompress_signature compressed with
      | Except.error e => Except.error e
      | Except.ok s2_coeffs =>
        let s2 := from_signed_coeffs s2_coeffs
        let c := hash_to_point msg nonce fuel
        let s2h_ntt := poly_pointwise_mul (poly_ntt s2) (poly_ntt h)
        let s1 := poly_intt (poly_sub (poly_ntt c) s2h_ntt)
        let s1_signed := s1.map balanced_value
        if norm_squared_fixed s1_signed s2_coeffs ≥ FALCON_512_SIG_BOUND_FIXED then
          Except.error ProgramError.invalidAccountData
        else Except.ok ()

/-- The coefficient vector of the repository unit test test_ntt_roundtrip
(ntt.rs lines 202-221): entries i + 1 for the first ten indices, zero
elsewhere; all entries lie in the range required by the round-trip claim. -/
def c2_test_vector : List Nat := (List.range 512).map (fun i => if i < 10 then i + 1 else 0)

/-- The buffer that encodes the all-zero coefficient vector: for each of the
512 coefficients one zero sign bit, seven zero value bits and one zero
continuation bit, 4608 zero bits in 576 zero bytes. -/
def all_zero_buffer : List Nat := List.replicate 576 0

/-- A 578-byte buffer whose first coefficient code has the sign bit clear,
two all-zero 7-bit groups with set continuation bits, and a third group that
places a single bit at value position 15; the remaining 511 coefficients are
minimal zero codes.  It decodes to the coefficient -32768. -/
def c4_buffer : List Nat := 0 :: 1 :: 0x41 :: List.replicate 575 0

/-! ## Theorems -/

/-- Helper: every iteration of the public-key coefficient loop with index
below 511 passes its guard, and index 511 hits the off-by-two guard
byte_offset + 2 = 894 + 2 >= 896. -/
theorem parse_pk_loop_err (data : List Nat) (hlen : data.length = 896) :
    ∀ k i acc, i + k = 511 →
      parse_pk_loop data (k + 1) i acc = Except.error ProgramError.invalidAccountData := by
  intro k
  induction k with
  | zero =>
    intro i acc hi
    have : i = 511 := by omega
    subst this
    simp [parse_pk_loop, hlen]
  | succ k ih =>
    intro i acc hi
    rw [parse_pk_loop, hlen, if_neg (by omega)]
    exact ih (i + 1) _ (by omega)

/-- Helper: parse_public_key rejects every 897-byte public key: either the
header byte differs from 9, or the coefficient loop reaches index 511 where
the guard byte_offset + 2 >= 896 fires unconditionally. -/
theorem parse_public_key_err (pk : List Nat) (h : pk.length = 897) :
    parse_public_key pk = Except.error ProgramError.invalidAccountData := by
  unfold parse_public_key
  by_cases hh : pk.getD 0 0 ≠ 9
  · rw [if_pos hh]
  · rw [if_neg hh]
    have hd : (pk.drop 1).length = 896 := by simp [h]
    exact parse_pk_loop_err (pk.drop 1) hd 511 0 [] (by omega)

/-- C3: the claim states fast_mod_q x = x mod 12289 for every u32 input,
in particular at the boundary values q, q + 1 and 2q asserted by the
repository unit test test_modular_arithmetic.  The code disagrees: the
identity 2^13 = 13 (mod 12289) that the shortcut assumes is false
(2^13 = 8192), so fast_mod_q 12289 = 4110 while 12289 mod 12289 = 0,
fast_mod_q 12290 = 4111 while the remainder is 1, and
fast_mod_q 24578 = 41 while the remainder is 0. -/
theorem fast_mod_q_wrong :
    fast_mod_q 12289 = 4110 ∧ fast_mod_q 12289 ≠ 12289 % 12289 ∧
    fast_mod_q 12290 = 4111 ∧ fast_mod_q 12290 ≠ 12290 % 12289 ∧
    fast_mod_q 24578 = 41 ∧ fast_mod_q 24578 ≠ 24578 % 12289 := by
  refine ⟨by decide, by decide, by decide, by decide, by decide, by decide⟩

set_option maxRecDepth 100000 in
set_option maxHeartbeats 4000000 in
/-- C2: the claim states that ntt_inverse after ntt_forward is the identity on
every length-512 vector with entries in the field range.  It fails on the
repository's own round-trip test vector (entries 1..10 followed by zeros, all
below q), because fast_mod_q is not a reduction modulo q: the first recovered
coefficient is 189160 instead of 1. -/
theorem ntt_roundtrip_fails :
    (∀ x ∈ c2_test_vector, x < 12289) ∧
    ntt_inverse (ntt_forward c2_test_vector) ≠ c2_test_vector := by
  refine ⟨by decide, by decide⟩

set_option maxRecDepth 100000 in
set_option maxHeartbeats 4000000 in
/-- C6: the claim states that the SHAKE256 implementation reproduces the
FIPS 202 known-answer digests for the empty input and for "abc", as asserted
by the repository unit tests test_shake256_empty and test_shake256_abc.  The
code disagrees: its ROUND_CONSTANTS table is corrupted from index 11 on and
its combined rho/pi step writes the rotated lane at pi_coordinates t instead
of pi_coordinates (t + 1), so the empty-input digest starts 0x28 0xe5 instead
of 0x46 0xb9 and the "abc" digest starts 0x46 0x57 instead of 0x48 0x33. -/
theorem shake256_kat_fails :
    shake256_digest [] 32 =
      [40, 229, 90, 14, 193, 83, 130, 178, 215, 135, 53, 100, 186, 150, 192, 79,
       221, 37, 210, 30, 19, 192, 63, 69, 40, 216, 0, 51, 228, 97, 11, 102] ∧
    shake256_digest [] 32 ≠
      [0x46, 0xb9, 0xdd, 0x2b, 0x0b, 0xa8, 0x8d, 0x13, 0x23, 0x3b, 0x3f, 0xeb, 0x74, 0x3e, 0xeb,
       0x24, 0x3f, 0xcd, 0x52, 0xea, 0x62, 0xb8, 0x1b, 0x82, 0xb5, 0x0c, 0x27, 0x64, 0x6e, 0xd5,
       0x76, 0x2f] ∧
    shake256_digest [97, 98, 99] 32 =
      [70, 87, 67, 147, 68, 84, 0, 111, 171, 27, 64, 124, 94, 0, 227, 178, 193, 205,
       39, 38, 148, 241, 238, 104, 163, 134, 195, 96, 237, 21, 91, 141] ∧
    shake256_digest [97, 98, 99] 32 ≠
      [0x48, 0x33, 0x66, 0x60, 0x13, 0x60, 0xa8, 0x77, 0x1c, 0x68, 0x63, 0x08, 0x0c, 0xc4, 0x11,
       0x4d, 0x8d, 0xb4, 0x45, 0x30, 0xf8, 0xf1, 0xe1, 0xee, 0x4f, 0x94, 0xea, 0x37, 0xe7, 0x8b,
       0x57, 0x39] := by
  refine ⟨by decide, by decide, by decide, by decide⟩

set_option maxRecDepth 100000 in
set_option maxHeartbeats 8000000 in
/-- C9: decompressing the buffer that correctly encodes the all-zero
coefficient vector (one zero sign bit, one all-zero 7-bit group and a zero
continuation bit per coefficient, 576 zero bytes in total) succeeds and
returns 512 zero coefficients. -/
theorem decompress_all_zero :
    decompress_signature all_zero_buffer = Except.ok (List.replicate 512 (0 : Int)) := by
  decide

set_option maxRecDepth 100000 in
set_option maxHeartbeats 8000000 in
/-- C4 counterexample: the claim states that decompress_signature returns the
error exactly when the buffer is exhausted, the shift overflows, or a decoded
coefficient's signed magnitude exceeds 2048.  On this 578-byte buffer the
first coefficient decodes to -32768, whose magnitude 32768 exceeds 2048, yet
the function returns Ok: the bound check uses the wrapping i16 absolute
value, and the absolute value of -32768 wraps back to -32768. -/
theorem decompress_magnitude_counterexample :
    decompress_signature c4_buffer = Except.ok ((-32768 : Int) :: List.replicate 511 0) ∧
    2048 < (-32768 : Int).natAbs := by
  refine ⟨by decide, by decide⟩

/-- Helper: a successful 7-bit read ends exactly 7 positions further, and its
end position stays within the bit size of the buffer. -/
theorem read7_pos (cs : List Nat) :
    ∀ k pos acc bv p2, read7 cs k pos acc = some (bv, p2) →
      p2 = pos + k ∧ (k = 0 ∨ p2 ≤ 8 * cs.length) := by
  intro k
  induction k with
  | zero =>
    intro pos acc bv p2 h
    rw [read7] at h
    injection h with hp
    injection hp with h1 h2
    exact ⟨by omega, Or.inl rfl⟩
  | succ k ih =>
    intro pos acc bv p2 h
    rw [read7] at h
    split at h
    · exact absurd h (by simp)
    · rename_i hg
      obtain ⟨h1, h2⟩ := ih (pos + 1) _ bv p2 h
      refine ⟨by omega, Or.inr ?_⟩
      have hp : pos < 8 * cs.length := by omega
      rcases h2 with h2 | h2 <;> omega

/-- Helper: a successful continuation loop consumes at least one 8-bit group
and ends within the bit size of the buffer. -/
theorem group_loop_pos (cs : List Nat) :
    ∀ fuel pos shift value v p2, group_loop cs fuel pos shift value = Except.ok (v, p2) →
      pos + 8 ≤ p2 ∧ p2 ≤ 8 * cs.length := by
  intro fuel
  induction fuel with
  | zero =>
    intro pos shift value v p2 h
    rw [group_loop] at h
    exact absurd h (by simp)
  | succ fuel ih =>
    intro pos shift value v p2 h
    simp only [group_loop] at h
    split at h
    · exact absurd h (by simp)
    · rename_i hg1
      split at h
      · exact absurd h (by simp)
      · rename_i bv px hr
        obtain ⟨hp7, hle7⟩ := read7_pos cs 7 pos 0 bv px hr
        have hle7b : px ≤ 8 * cs.length := by
          rcases hle7 with h7 | h7
          · omega
          · exact h7
        split at h
        · exact absurd h (by simp)
        · rename_i hg2
          have hq2 : px < 8 * cs.length := by omega
          split at h
          · injection h with hp
            injection hp with h1 h2
            omega
          · split at h
            · exact absurd h (by simp)
            · obtain ⟨ha, hb⟩ := ih (px + 1) _ _ v p2 h
              omega

/-- Helper: a successfully decoded coefficient consumes at least 9 bits
(sign, group, continuation) and ends within the bit size of the buffer. -/
theorem decode_coeff_pos (cs : List Nat) (pos : Nat) (v : Int) (p2 : Nat)
    (h : decode_coeff cs pos = Except.ok (v, p2)) :
    pos + 9 ≤ p2 ∧ p2 ≤ 8 * cs.length := by
  simp only [decode_coeff] at h
  split at h
  · exact absurd h (by simp)
  · split at h
    · exact absurd h (by simp)
    · rename_i gv gp hg
      obtain ⟨ha, hb⟩ := group_loop_pos cs 3 (pos + 1) 0 0 gv gp hg
      split at h <;> split at h
      · exact absurd h (by simp)
      · injection h with hp
        injection hp with h1 h2
        omega
      · exact absurd h (by simp)
      · injection h with hp
        injection hp with h1 h2
        omega

/-- Helper: every successfully decoded coefficient passes the in-code bound
check on the wrapping absolute value. -/
theorem decode_coeff_abs (cs : List Nat) (pos : Nat) (v : Int) (p2 : Nat)
    (h : decode_coeff cs pos = Except.ok (v, p2)) : wrapping_abs v ≤ 2048 := by
  simp only [decode_coeff] at h
  split at h
  · exact absurd h (by simp)
  · split at h
    · exact absurd h (by simp)
    · rename_i gv gp hg
      split at h <;> split at h
      · exact absurd h (by simp)
      · rename_i hc
        injection h with hp
        injection hp with h1 h2
        rw [← h1]
        omega
      · exact absurd h (by simp)
      · rename_i hc
        injection h with hp
        injection hp with h1 h2
        rw [← h1]
        omega

/-- Helper: the decompression loop either succeeds with exactly one
coefficient per remaining index, all within the wrapping bound, or returns
the typed error value. -/
theorem decompress_loop_shape (cs : List Nat) :
    ∀ k pos acc, (∀ x ∈ acc, wrapping_abs x ≤ 2048) →
      (∃ r, decompress_loop cs k pos acc = Except.ok r ∧ r.length = acc.length + k ∧
        ∀ x ∈ r, wrapping_abs x ≤ 2048) ∨
      decompress_loop cs k pos acc = Except.error ProgramError.invalidAccountData := by
  intro k
  induction k with
  | zero =>
    intro pos acc hacc
    refine Or.inl ⟨acc.reverse, by simp [decompress_loop], by simp, ?_⟩
    intro x hx
    exact hacc x (List.mem_reverse.mp hx)
  | succ k ih =>
    intro pos acc hacc
    rw [decompress_loop]
    cases hd : decode_coeff cs pos with
    | error e =>
      cases e
      exact Or.inr rfl
    | ok out =>
      obtain ⟨v, p2⟩ := out
      have habs := decode_coeff_abs cs pos v p2 hd
      have hacc2 : ∀ x ∈ v :: acc, wrapping_abs x ≤ 2048 := by
        intro x hx
        rcases List.mem_cons.mp hx with h | h
        · rw [h]; exact habs
        · exact hacc x h
      rcases ih p2 (v :: acc) hacc2 with ⟨r, hr, hlen, hb⟩ | herr
      · refine Or.inl ⟨r, hr, ?_, hb⟩
        simp at hlen ⊢
        omega
      · exact Or.inr herr

/-- Helper: a successful decompression of k coefficients starting at bit pos
requires at least 9 bits per coefficient in the buffer. -/
theorem decompress_loop_len (cs : List Nat) :
    ∀ k pos acc r, decompress_loop cs k pos acc = Except.ok r →
      k = 0 ∨ pos + 9 * k ≤ 8 * cs.length := by
  intro k
  induction k with
  | zero => intro pos acc r _; exact Or.inl rfl
  | succ k ih =>
    intro pos acc r h
    rw [decompress_loop] at h
    split at h
    · exact absurd h (by simp)
    · rename_i v p2 hd
      obtain ⟨ha, hb⟩ := decode_coeff_pos cs pos v p2 hd
      rcases ih p2 _ r h with h0 | hk
      · subst h0; omega
      · exact Or.inr (by omega)

/-- C4 (amended): for every input byte buffer, decompress_signature either
returns exactly 512 decoded coefficients, each of whose wrapping 16-bit
absolute value is at most 2048, or the typed error value
InvalidAccountData (it is a total function, so it never aborts abnormally);
and every buffer shorter than the 576 bytes needed for 512 minimal
9-bit codes is exhausted mid-code and yields the error. -/
theorem decompress_total_bounded :
    ∀ cs : List Nat,
      ((∃ r, decompress_signature cs = Except.ok r ∧ r.length = 512 ∧
          ∀ x ∈ r, wrapping_abs x ≤ 2048) ∨
        decompress_signature cs = Except.error ProgramError.invalidAccountData) ∧
      (cs.length < 576 → decompress_signature cs = Except.error ProgramError.invalidAccountData) := by
  intro cs
  have hs := decompress_loop_shape cs 512 0 [] (by simp)
  constructor
  · simpa [decompress_signature] using hs
  · intro hlen
    rcases hs with ⟨r, hr, hl, hb⟩ | herr
    · rcases decompress_loop_len cs 512 0 [] r hr with h0 | hbound
      · exact absurd h0 (by omega)
      · exact absurd hbound (by omega)
    · exact herr

/-- Witness for C4: the empty buffer is shorter than 576 bytes and is
rejected with the typed error value. -/
theorem decompress_total_bounded_witness :
    decompress_signature [] = Except.error ProgramError.invalidAccountData :=
  (decompress_total_bounded []).2 (by decide)

/-- Helper: membership in a list after List.set comes from the original list
or is the written value. -/
theorem htp_mem_set (l : List Nat) (n a x : Nat) (h : x ∈ l.set n a) : x ∈ l ∨ x = a := by
  induction l generalizing n with
  | nil => simp at h
  | cons b t ih =>
    cases n with
    | zero =>
      rcases List.mem_cons.mp h with h1 | h1
      · exact Or.inr h1
      · exact Or.inl (List.mem_cons_of_mem b h1)
    | succ n =>
      rcases List.mem_cons.mp h with h1 | h1
      · exact Or.inl (h1 ▸ List.mem_cons_self b t)
      · rcases ih n h1 with h2 | h2
        · exact Or.inl (List.mem_cons_of_mem b h2)
        · exact Or.inr h2

/-- Helper: the rejection-sampling loop preserves the invariant that every
stored coefficient is below Q, because every written value is t mod Q. -/
theorem htp_loop_range :
    ∀ fuel c i r, (∀ x ∈ c, x < 12289) → ∀ x ∈ htp_loop fuel c i r, x < 12289 := by
  intro fuel
  induction fuel with
  | zero => intro c i r hc; simpa [htp_loop] using hc
  | succ fuel ih =>
    intro c i r hc x hx
    simp only [htp_loop, htp_step] at hx
    split at hx
    · split at hx
      · refine ih _ _ _ ?_ x hx
        intro y hy
        rcases htp_mem_set c i _ y hy with h1 | h1
        · exact hc y h1
        · rw [h1]; exact Nat.mod_lt _ (by omega)
      · exact ih _ _ _ hc x hx
    · exact hc x hx

/-- C7: every coefficient produced by hash_to_point lies in [0, Q) for every
message, nonce and fuel bound on the rejection-sampling loop; the acceptance
threshold K * Q equals floor(65536 / 12289) * 12289 = 61445; and each loop
iteration either accepts its 2-byte big-endian draw t reduced mod Q and
advances the index (exactly when t < 61445), or discards the draw and leaves
the coefficients and index unchanged, continuing with the advanced stream. -/
theorem hash_to_point_ok :
    (∀ message nonce fuel, ∀ x ∈ hash_to_point message nonce fuel, x < 12289) ∧
    K * 12289 = 61445 ∧
    (∀ c i r,
      ((draw2 r).1 < 61445 ∧
        htp_step c i r = (c.set i ((draw2 r).1 % 12289), i + 1, (draw2 r).2)) ∨
      (¬(draw2 r).1 < 61445 ∧ htp_step c i r = (c, i, (draw2 r).2))) := by
  refine ⟨?_, rfl, ?_⟩
  · intro message nonce fuel
    refine htp_loop_range fuel _ 0 _ ?_
    intro x hx
    have := List.eq_of_mem_replicate hx
    omega
  · intro c i r
    unfold htp_step
    by_cases hd : (draw2 r).1 < K * 12289
    · rw [if_pos hd]
      exact Or.inl ⟨hd, rfl⟩
    · rw [if_neg hd]
      exact Or.inr ⟨hd, rfl⟩

/-- Witness for C7: coefficient 0 of the fuel-0 output is in range. -/
theorem hash_to_point_ok_witness :
    (0 ∈ hash_to_point [] [] 0) ∧ 0 < 12289 :=
  ⟨by decide, hash_to_point_ok.1 [] [] 0 0 (by decide)⟩

/-- Helper: elementwise round trip of the signed-to-unsigned conversion for
entries in the centered range. -/
theorem conversion_roundtrip_aux :
    ∀ l : List Int, (∀ x ∈ l, -6144 ≤ x ∧ x ≤ 6144) →
      from_ntt_form (to_ntt_form l) = l := by
  intro l
  induction l with
  | nil => intro _; rfl
  | cons a t ih =>
    intro hb
    obtain ⟨h1, h2⟩ := hb a (List.mem_cons_self a t)
    have ht := ih (fun x hx => hb x (List.mem_cons_of_mem a hx))
    simp only [to_ntt_form, from_ntt_form, List.map_cons] at ht ⊢
    rw [ht]
    congr 1
    simp only [wrap16]
    split_ifs <;> omega

/-- C10: for every length-512 signed coefficient vector with all entries in
[-6144, 6144], converting to the non-negative residue representation with
to_ntt_form and back with from_ntt_form is the identity. -/
theorem conversion_roundtrip (l : List Int) (hlen : l.length = 512)
    (hb : ∀ x ∈ l, -6144 ≤ x ∧ x ≤ 6144) :
    from_ntt_form (to_ntt_form l) = l :=
  conversion_roundtrip_aux l hb

/-- Witness for C10: the all-zero length-512 vector round-trips. -/
theorem conversion_roundtrip_witness :
    from_ntt_form (to_ntt_form (List.replicate 512 0)) = List.replicate 512 0 :=
  conversion_roundtrip (List.replicate 512 0) (by rw [List.length_replicate]) (by
    intro x hx
    have := List.eq_of_mem_replicate hx
    omega)

/-- C1: the claim states that for inputs passing the header, format and
decode checks, verification accepts exactly when the fixed-point norm is
below the bound.  No input can pass those checks: parse_public_key rejects
every 897-byte public key (the guard byte_offset + 2 >= 896 fires at
coefficient index 511), so verify_falcon_signature returns the error on
every public key, signature and message, for every sampling fuel, and the
accept branch guarded by the norm comparison is unreachable. -/
theorem verify_always_rejects (fuel : Nat) (pk sig msg : List Nat) (h : pk.length = 897) :
    verify_falcon_signature fuel pk sig msg = Except.error ProgramError.invalidAccountData := by
  unfold verify_falcon_signature
  rw [parse_public_key_err pk h]

/-- Witness for C1: the repository's own mock public key (897 bytes of 0x09,
a valid header) is rejected together with any signature bytes. -/
theorem verify_always_rejects_witness :
    verify_falcon_signature 0 (List.replicate 897 9) (List.replicate 666 41) [] =
      Except.error ProgramError.invalidAccountData :=
  verify_always_rejects 0 (List.replicate 897 9) (List.replicate 666 41) []
    (by rw [List.length_replicate])

/-- C5: verify_falcon_signature is deterministic: it is a pure function of
its input buffers (and of the sampling fuel), so byte-for-byte identical
inputs produce identical accept/reject results. -/
theorem verify_deterministic (fuel : Nat) (pk pk2 sig sig2 msg msg2 : List Nat)
    (h1 : pk = pk2) (h2 : sig = sig2) (h3 : msg = msg2) :
    verify_falcon_signature fuel pk sig msg = verify_falcon_signature fuel pk2 sig2 msg2 := by
  rw [h1, h2, h3]

/-- Witness for C5: two invocations on identical concrete buffers agree. -/
theorem verify_deterministic_witness :
    verify_falcon_signature 0 (List.replicate 897 9) (List.replicate 666 41) [7] =
      verify_falcon_signature 0 (List.replicate 897 9) (List.replicate 666 41) [7] :=
  verify_deterministic 0 _ _ _ _ _ _ rfl rfl rfl

/-- C8: for every public key, message and signature whose header byte does
not decode to encoding tag 2, fixed bit 1 and log-dimension 9,
parse_signature rejects the signature by the header check alone, and
verify_falcon_signature returns the format error value for every sampling
fuel; evaluation short-circuits at parsing, so no signature decompression,
hash-to-point sampling or NTT arithmetic is reached. -/
theorem bad_header_rejected (fuel : Nat) (pk sig msg : List Nat)
    (h : ¬ sig_header_ok (sig.getD 0 0)) :
    parse_signature sig = Except.error ProgramError.invalidAccountData ∧
    verify_falcon_signature fuel pk sig msg = Except.error ProgramError.invalidAccountData := by
  have hps : parse_signature sig = Except.error ProgramError.invalidAccountData := by
    unfold parse_signature
    rw [if_pos]
    unfold sig_header_ok at h
    tauto
  refine ⟨hps, ?_⟩
  unfold verify_falcon_signature
  cases hpk : parse_public_key pk with
  | error e => cases e; rfl
  | ok hp => rw [hps]

/-- Witness for C8: an all-zero signature buffer has header byte 0, which
fails the header check, and is rejected. -/
theorem bad_header_rejected_witness :
    parse_signature (List.replicate 666 0) = Except.error ProgramError.invalidAccountData ∧
    verify_falcon_signature 0 (List.replicate 897 9) (List.replicate 666 0) [] =
      Except.error ProgramError.invalidAccountData :=
  bad_header_rejected 0 (List.replicate 897 9) (List.replicate 666 0) [] (by decide)
